import Mathlib

/-!
# Input handling of the "big ballistic" demo

Embedding of `src/demos/bigballistic/bigballistic.cpp`:

* `BigBallisticDemo::mouse` and `BigBallisticDemo::key` become state transformers;
* the member functions `fire()` and `reset()`, whose bodies live outside the
  fragment, are parameters (`Methods`), so every theorem holds for any
  implementation of them;
* each invocation of `fire()` / `reset()` is recorded in a ghost call log, so
  that "invoked exactly once" and "in this order" are statements about data.
-/

set_option linter.unusedVariables false

namespace BigBallistic

/-- Modelled from the spec: the `ShotType` enumeration, whose declaration is not part
of the fragment. These are the four enumerators the fragment assigns. -/
inductive ShotType where
  | PISTOL
  | ARTILLERY
  | FIREBALL
  | LASER
  deriving DecidableEq, Repr

/-- The two member functions the handlers delegate to. -/
inductive Call where
  | fire
  | reset
  deriving DecidableEq, Repr

/-- The demo object: the member `currentShotType` the fragment writes, and every
other member (`rest`), which the fragment never touches directly. -/
structure BigBallisticDemo (ρ : Type) where
  currentShotType : ShotType
  rest : ρ

/-- The member functions `fire()` and `reset()`; their bodies are outside the
fragment, so they are arbitrary transformers of the demo object. -/
structure Methods (ρ : Type) where
  fire : BigBallisticDemo ρ → BigBallisticDemo ρ
  reset : BigBallisticDemo ρ → BigBallisticDemo ρ

/-- The demo object together with the ghost log of `fire()` / `reset()` invocations,
oldest first. -/
structure World (ρ : Type) where
  scene : BigBallisticDemo ρ
  calls : List Call

/-- GLUT's button state for "pressed" (`#define GLUT_DOWN 0`). -/
def GLUT_DOWN : Int := 0

/-- GLUT's button state for "released" (`#define GLUT_UP 1`). -/
def GLUT_UP : Int := 1

/-- An `unsigned char`. -/
abbrev UChar : Type := Fin 256

/-- The `unsigned char` value of a character literal. -/
def ofChar (c : Char) : UChar := ⟨c.toNat % 256, Nat.mod_lt _ (by decide)⟩

/-- The statement `fire();`. -/
def invokeFire {ρ : Type} (M : Methods ρ) (w : World ρ) : World ρ :=
  { scene := M.fire w.scene, calls := w.calls ++ [Call.fire] }

/-- The statement `reset();`. -/
def invokeReset {ρ : Type} (M : Methods ρ) (w : World ρ) : World ρ :=
  { scene := M.reset w.scene, calls := w.calls ++ [Call.reset] }

/-- The statement `currentShotType = t;`. -/
def assignShot {ρ : Type} (t : ShotType) (w : World ρ) : World ρ :=
  { w with scene := { w.scene with currentShotType := t } }

/-- `BigBallisticDemo::mouse`: `if (state == GLUT_DOWN) fire();`. -/
def mouse {ρ : Type} (M : Methods ρ) (button state x y : Int) (w : World ρ) : World ρ :=
  if state = GLUT_DOWN then invokeFire M w else w

/-- `BigBallisticDemo::key`: the `switch` over the key code; every case ends in
`break`, and there is no `default`. -/
def key {ρ : Type} (M : Methods ρ) (key : UChar) (w : World ρ) : World ρ :=
  if key = ofChar '1' then assignShot ShotType.PISTOL w
  else if key = ofChar '2' then assignShot ShotType.ARTILLERY w
  else if key = ofChar '3' then assignShot ShotType.FIREBALL w
  else if key = ofChar '4' then assignShot ShotType.LASER w
  else if key = ofChar 'r' ∨ key = ofChar 'R' then invokeReset M w
  else w

/-- An input event as delivered by the windowing layer. -/
inductive Event where
  | pointer (button state x y : Int)
  | key (key : UChar)

/-- Delivery of one event to the matching handler. -/
def handle {ρ : Type} (M : Methods ρ) (e : Event) (w : World ρ) : World ρ :=
  match e with
  | Event.pointer button state x y => mouse M button state x y w
  | Event.key k => key M k w

/-- Delivery of a sequence of events, first to last. -/
def run {ρ : Type} (M : Methods ρ) (es : List Event) (w : World ρ) : World ρ :=
  es.foldl (fun acc e => handle M e acc) w

/-- The call an event is expected to cause: a pressed pointer event fires, the keys
`r` and `R` reset, and anything else causes nothing. -/
def expectedCall : Event → Option Call
  | Event.pointer _ state _ _ => if state = GLUT_DOWN then some Call.fire else none
  | Event.key k => if k = ofChar 'r' ∨ k = ofChar 'R' then some Call.reset else none

/-- Whether an event is a pointer event in the pressed state. -/
def isPress : Event → Bool
  | Event.pointer _ state _ _ => decide (state = GLUT_DOWN)
  | Event.key _ => false

/-- Whether an event is the key `r` or the key `R`. -/
def isResetKey : Event → Bool
  | Event.pointer _ _ _ _ => false
  | Event.key k => decide (k = ofChar 'r' ∨ k = ofChar 'R')

/-- The four shot-select keys. -/
def shotKeys : List UChar := [ofChar '1', ofChar '2', ofChar '3', ofChar '4']

/-- A concrete implementation of the two methods over a shot counter: `fire` counts
one more shot and `reset` clears the counter. -/
def counterMethods : Methods Nat where
  fire := fun s => { s with rest := s.rest + 1 }
  reset := fun s => { s with rest := 0 }

/-- A concrete starting world: laser selected, no shot fired, empty call log. -/
def sampleWorld : World Nat :=
  { scene := { currentShotType := ShotType.LASER, rest := 0 }, calls := [] }

/-! ## Theorems -/

/-- The key codes of the six character literals of the `switch`. -/
theorem ofChar_codes :
    ofChar '1' = 49 ∧ ofChar '2' = 50 ∧ ofChar '3' = 51 ∧ ofChar '4' = 52 ∧
    ofChar 'r' = 114 ∧ ofChar 'R' = 82 := by decide

/-- The call log after a run is the old log followed by the expected calls. -/
theorem run_calls {ρ : Type} (M : Methods ρ) (es : List Event) :
    ∀ w : World ρ, (run M es w).calls = w.calls ++ es.filterMap expectedCall := by
  induction es with
  | nil => intro w; simp [run]
  | cons e es ih =>
    intro w
    have step : (handle M e w).calls = w.calls ++ (expectedCall e).toList := by
      cases e with
      | pointer button state x y =>
        by_cases h : state = GLUT_DOWN <;> simp [handle, mouse, invokeFire, expectedCall, h]
      | key k =>
        by_cases h1 : k = ofChar '1'
        · subst h1; simp [handle, key, assignShot, expectedCall, ofChar]
        by_cases h2 : k = ofChar '2'
        · subst h2; simp [handle, key, assignShot, expectedCall, ofChar]
        by_cases h3 : k = ofChar '3'
        · subst h3; simp [handle, key, assignShot, expectedCall, ofChar]
        by_cases h4 : k = ofChar '4'
        · subst h4; simp [handle, key, assignShot, expectedCall, ofChar]
        by_cases hr : k = ofChar 'r' ∨ k = ofChar 'R'
        · simp [handle, key, invokeReset, expectedCall, h1, h2, h3, h4, hr]
        · simp [handle, key, expectedCall, h1, h2, h3, h4, hr]
    have hrun : run M (e :: es) w = run M es (handle M e w) := rfl
    rw [hrun, ih, step]
    cases hc : expectedCall e <;> simp [List.filterMap_cons, hc]

/-- The number of `fire` calls expected from a sequence is its number of presses. -/
theorem count_fire_expected (es : List Event) :
    (es.filterMap expectedCall).count Call.fire = es.countP isPress := by
  induction es with
  | nil => simp
  | cons e es ih =>
    cases e with
    | pointer button state x y =>
      by_cases h : state = GLUT_DOWN <;>
        simp [List.filterMap_cons, expectedCall, isPress, List.countP_cons, h, ih]
    | key k =>
      by_cases h : k = ofChar 'r' ∨ k = ofChar 'R' <;>
        simp [List.filterMap_cons, expectedCall, isPress, List.countP_cons, h, ih]

/-- The number of `reset` calls expected from a sequence is its number of `r`/`R` keys. -/
theorem count_reset_expected (es : List Event) :
    (es.filterMap expectedCall).count Call.reset = es.countP isResetKey := by
  induction es with
  | nil => simp
  | cons e es ih =>
    cases e with
    | pointer button state x y =>
      by_cases h : state = GLUT_DOWN <;>
        simp [List.filterMap_cons, expectedCall, isResetKey, List.countP_cons, h, ih]
    | key k =>
      by_cases h : k = ofChar 'r' ∨ k = ofChar 'R' <;>
        simp [List.filterMap_cons, expectedCall, isResetKey, List.countP_cons, h, ih]

/-- C1: whatever the prior scene, each shot-select key leaves `currentShotType` equal
to its mapped type: `1` PISTOL, `2` ARTILLERY, `3` FIREBALL, `4` LASER. -/
theorem key_selects_shot {ρ : Type} (M : Methods ρ) (w : World ρ) :
    (key M (ofChar '1') w).scene.currentShotType = ShotType.PISTOL ∧
    (key M (ofChar '2') w).scene.currentShotType = ShotType.ARTILLERY ∧
    (key M (ofChar '3') w).scene.currentShotType = ShotType.FIREBALL ∧
    (key M (ofChar '4') w).scene.currentShotType = ShotType.LASER := by
  refine ⟨?_, ?_, ?_, ?_⟩ <;> simp [key, assignShot, ofChar]

/-- C2: a key other than `1`, `2`, `3`, `4`, `r`, `R` leaves the whole world as it was:
`currentShotType` and every other member are unchanged and the call log gains neither
a `fire` nor a `reset`. -/
theorem key_other_noop {ρ : Type} (M : Methods ρ) (k : UChar) (w : World ρ)
    (h1 : k ≠ ofChar '1') (h2 : k ≠ ofChar '2') (h3 : k ≠ ofChar '3')
    (h4 : k ≠ ofChar '4') (hr : k ≠ ofChar 'r') (hR : k ≠ ofChar 'R') :
    key M k w = w := by
  simp [key, h1, h2, h3, h4, hr, hR]

/-- C2 at the key `a` on the sample world. -/
theorem key_other_noop_witness :
    key counterMethods (ofChar 'a') sampleWorld = sampleWorld :=
  key_other_noop counterMethods (ofChar 'a') sampleWorld
    (by decide) (by decide) (by decide) (by decide) (by decide) (by decide)

/-- C3: the keys `r` and `R` each invoke `reset()` exactly once and do nothing else: the
scene becomes `reset` of the prior scene and the call log gains the single entry
`reset`, identically for both keys. -/
theorem key_reset {ρ : Type} (M : Methods ρ) (w : World ρ) :
    key M (ofChar 'r') w = { scene := M.reset w.scene, calls := w.calls ++ [Call.reset] } ∧
    key M (ofChar 'R') w = { scene := M.reset w.scene, calls := w.calls ++ [Call.reset] } := by
  constructor <;> simp [key, invokeReset, ofChar]

/-- C4: a pointer event in the pressed state invokes `fire()` exactly once, whatever the
button and the coordinates: the scene becomes `fire` of the prior scene and the call
log gains the single entry `fire`. -/
theorem mouse_press_fires {ρ : Type} (M : Methods ρ) (button x y : Int) (w : World ρ) :
    mouse M button GLUT_DOWN x y w =
      { scene := M.fire w.scene, calls := w.calls ++ [Call.fire] } := by
  simp [mouse, invokeFire]

/-- C5: a pointer event whose state is not `GLUT_DOWN` leaves the whole world as it was,
so neither `fire()` nor `reset()` is invoked. -/
theorem mouse_release_noop {ρ : Type} (M : Methods ρ) (button state x y : Int)
    (w : World ρ) (h : state ≠ GLUT_DOWN) :
    mouse M button state x y w = w := by
  simp [mouse, h]

/-- C5 at a release (`GLUT_UP`) of button 2 on the sample world. -/
theorem mouse_release_noop_witness :
    mouse counterMethods 2 GLUT_UP 10 20 sampleWorld = sampleWorld :=
  mouse_release_noop counterMethods 2 GLUT_UP 10 20 sampleWorld (by decide)

/-- C6: from any world, the events key `2`, pointer press, key `r` act in this order:
after the first `currentShotType` is ARTILLERY and nothing was called; the second
makes one `fire()` call, on exactly that ARTILLERY scene; the third makes one
`reset()` call; the call log gains `fire, reset` and nothing else. -/
theorem scenario_select_fire_reset {ρ : Type} (M : Methods ρ) (button x y : Int)
    (w : World ρ) :
    run M [Event.key (ofChar '2')] w = assignShot ShotType.ARTILLERY w ∧
    (run M [Event.key (ofChar '2')] w).scene.currentShotType = ShotType.ARTILLERY ∧
    (run M [Event.key (ofChar '2')] w).calls = w.calls ∧
    run M [Event.key (ofChar '2'), Event.pointer button GLUT_DOWN x y] w =
      { scene := M.fire (assignShot ShotType.ARTILLERY w).scene,
        calls := w.calls ++ [Call.fire] } ∧
    run M [Event.key (ofChar '2'), Event.pointer button GLUT_DOWN x y,
        Event.key (ofChar 'r')] w =
      { scene := M.reset (M.fire (assignShot ShotType.ARTILLERY w).scene),
        calls := w.calls ++ [Call.fire, Call.reset] } := by
  refine ⟨?_, ?_, ?_, ?_, ?_⟩ <;>
    simp [run, handle, key, mouse, assignShot, invokeFire, invokeReset, ofChar]

/-- C7: `mouse` never assigns `currentShotType`: the scene after a pointer event is the
prior scene or `fire` of it, so when `fire` preserves the shot type, so does `mouse`. -/
theorem mouse_keeps_shot {ρ : Type} (M : Methods ρ)
    (hfire : ∀ s, (M.fire s).currentShotType = s.currentShotType)
    (button state x y : Int) (w : World ρ) :
    ((mouse M button state x y w).scene = w.scene ∨
      (mouse M button state x y w).scene = M.fire w.scene) ∧
    (mouse M button state x y w).scene.currentShotType = w.scene.currentShotType := by
  by_cases h : state = GLUT_DOWN <;> simp [mouse, invokeFire, h, hfire]

/-- C7 at a press of button 0 on the sample world, with the counting `fire`. -/
theorem mouse_keeps_shot_witness :
    (∀ s, (counterMethods.fire s).currentShotType = s.currentShotType) ∧
    (mouse counterMethods 0 GLUT_DOWN 3 4 sampleWorld).scene.currentShotType =
      ShotType.LASER :=
  ⟨fun _ => rfl, (mouse_keeps_shot counterMethods (fun _ => rfl) 0 GLUT_DOWN 3 4 sampleWorld).2⟩

/-- C9: for every event sequence and starting world, the calls made are exactly the
order-preserving image of the events under `expectedCall`; hence the number of
`fire()` calls is the number of pressed pointer events and the number of `reset()`
calls is the number of `r`/`R` key events. -/
theorem run_call_trace {ρ : Type} (M : Methods ρ) (es : List Event) (w : World ρ) :
    (run M es w).calls = w.calls ++ es.filterMap expectedCall ∧
    (run M es w).calls.count Call.fire = w.calls.count Call.fire + es.countP isPress ∧
    (run M es w).calls.count Call.reset =
      w.calls.count Call.reset + es.countP isResetKey := by
  refine ⟨run_calls M es w, ?_, ?_⟩
  · rw [run_calls, List.count_append, count_fire_expected]
  · rw [run_calls, List.count_append, count_reset_expected]

/-- C10: shot selection is last-writer-wins and idempotent, and calls nothing: for
shot-select keys `k1`, `k2`, pressing `k1` then `k2` gives the world of pressing `k2`
alone, pressing `k1` twice that of pressing it once, and `k1` leaves the call log and
every member other than `currentShotType` as they were. -/
theorem key_select_last_wins {ρ : Type} (M : Methods ρ) (k1 k2 : UChar) (w : World ρ)
    (h1 : k1 ∈ shotKeys) (h2 : k2 ∈ shotKeys) :
    key M k2 (key M k1 w) = key M k2 w ∧
    key M k1 (key M k1 w) = key M k1 w ∧
    (key M k1 w).calls = w.calls ∧
    (key M k1 w).scene.rest = w.scene.rest := by
  simp only [shotKeys, List.mem_cons, List.mem_singleton, List.not_mem_nil, or_false] at h1 h2
  rcases h1 with rfl | rfl | rfl | rfl <;> rcases h2 with rfl | rfl | rfl | rfl <;>
    simp [key, assignShot, ofChar]

/-- C10 at the keys `1` then `3` on the sample world. -/
theorem key_select_last_wins_witness :
    key counterMethods (ofChar '3') (key counterMethods (ofChar '1') sampleWorld) =
      key counterMethods (ofChar '3') sampleWorld :=
  (key_select_last_wins counterMethods (ofChar '1') (ofChar '3') sampleWorld
    (by decide) (by decide)).1

end BigBallistic
